import Mathlib

set_option maxHeartbeats 1000000

/-!
Verification of the drive-download automation core.

The definitions below are shallow embeddings of the Python sources:
  drive_downloader.py           (link parsing, content sniffing, fetch handshake,
                                 temp-file finalization)
  backend/logic/core/processor.py (folder selection, table validation, row loop)

Python strings are modelled as `List Char` (with `String` wrappers at the API
boundary), bytes as `List Nat`, the filesystem as an association list from path
to content, and the network as an oracle function from request to result.
-/

/-- Python str.upper for the ASCII range (the category labels and markers used
by the program are ASCII). -/
def pyUpper (cs : List Char) : List Char := cs.map Char.toUpper

/-- Python str.lower for the ASCII range. -/
def pyLower (cs : List Char) : List Char := cs.map Char.toLower

/-- Python substring test `pat in s`. -/
def pyContains (pat : List Char) : List Char → Bool
  | [] => pat.isEmpty
  | c :: rest => pat.isPrefixOf (c :: rest) || pyContains pat rest

/-- Helper for `pySplitF`: prepend a character to the first piece of a split. -/
def consHead (c : Char) : List (List Char) → List (List Char)
  | [] => [[c]]
  | p :: ps => (c :: p) :: ps

/-- Fuelled worker for `pySplit`; the fuel bounds the number of characters still
to scan so that the definition is structural and computes by reduction. -/
def pySplitF (sep : List Char) : Nat → List Char → List (List Char)
  | _, [] => [[]]
  | 0, s => [s]
  | fuel + 1, c :: rest =>
    if sep ≠ [] ∧ sep.isPrefixOf (c :: rest) then
      [] :: pySplitF sep fuel (rest.drop (sep.length - 1))
    else
      consHead c (pySplitF sep fuel rest)

/-- Python str.split(sep) for a nonempty separator: non-overlapping left-to-right
scan, keeping empty pieces. -/
def pySplit (sep s : List Char) : List (List Char) := pySplitF sep s.length s

/-- Python sep.join(pieces). -/
def pyJoin (sep : List Char) : List (List Char) → List Char
  | [] => []
  | [p] => p
  | p :: q :: ps => p ++ sep ++ pyJoin sep (q :: ps)

/-- Python str.strip(chars): drop characters of the given set from both ends. -/
def stripChars (set : List Char) (s : List Char) : List Char :=
  ((s.dropWhile (fun c => set.contains c)).reverse.dropWhile
    (fun c => set.contains c)).reverse

/-- Index of the last '.' in a file name, if any (Python name.rfind('.')). -/
def lastDotIdx : List Char → Option Nat
  | [] => none
  | c :: rest =>
    match lastDotIdx rest with
    | some i => some (i + 1)
    | none => if c = '.' then some (0 : Nat) else none

/-- Pathlib stem of a file name: the name with its suffix removed.  A '.' only
counts as starting a suffix when it is neither the first nor the last character
(pathlib's `0 < i < len(name) - 1` rule on `rfind`). -/
def pyStem (name : List Char) : List Char :=
  match lastDotIdx name with
  | some i => if 0 < i ∧ i + 1 < name.length then name.take i else name
  | none => name

/-- Pathlib suffix of a file name (empty when there is no valid suffix). -/
def pySuffix (name : List Char) : List Char :=
  match lastDotIdx name with
  | some i => if 0 < i ∧ i + 1 < name.length then name.drop i else []
  | none => []

/-- Pathlib with_suffix on a file name: drop the existing suffix, append the
new one. -/
def pyWithSuffix (name suf : List Char) : List Char := pyStem name ++ suf

/-- Pathlib Path(p).name: the last nonempty '/'-separated component. -/
def lastComponent (p : List Char) : List Char :=
  (((pySplit ['/'] p).filter (fun q => !q.isEmpty)).getLastD [])

theorem pySplitF_nil (sep : List Char) (fuel : Nat) : pySplitF sep fuel [] = [[]] := by
  cases fuel <;> rfl

theorem pySplitF_succ_cons (sep : List Char) (fuel : Nat) (c : Char) (rest : List Char) :
    pySplitF sep (fuel + 1) (c :: rest) =
      if sep ≠ [] ∧ sep.isPrefixOf (c :: rest) then
        [] :: pySplitF sep fuel (rest.drop (sep.length - 1))
      else
        consHead c (pySplitF sep fuel rest) := rfl

theorem consHead_ne_nil (c : Char) (l : List (List Char)) : consHead c l ≠ [] := by
  cases l <;> simp [consHead]

theorem pySplitF_ne_nil (sep : List Char) (fuel : Nat) (s : List Char) :
    pySplitF sep fuel s ≠ [] := by
  match fuel, s with
  | _, [] => simp [pySplitF_nil]
  | 0, _ :: _ => simp [pySplitF]
  | fuel + 1, c :: rest =>
    rw [pySplitF_succ_cons]
    split
    · simp
    · exact consHead_ne_nil c _

theorem pySplitF_eq_of_le (sep : List Char) :
    ∀ (fuel₁ fuel₂ : Nat) (s : List Char), s.length ≤ fuel₁ → s.length ≤ fuel₂ →
      pySplitF sep fuel₁ s = pySplitF sep fuel₂ s := by
  intro fuel₁
  induction fuel₁ with
  | zero =>
    intro fuel₂ s h₁ _
    have : s = [] := List.length_eq_zero.mp (Nat.le_zero.mp h₁)
    subst this
    simp [pySplitF_nil]
  | succ f ih =>
    intro fuel₂ s h₁ h₂
    match s, fuel₂ with
    | [], _ => simp [pySplitF_nil]
    | c :: rest, 0 => simp at h₂
    | c :: rest, g + 1 =>
      rw [pySplitF_succ_cons, pySplitF_succ_cons]
      have hr : rest.length ≤ f := by simpa using h₁
      have hg : rest.length ≤ g := by simpa using h₂
      have hd : (rest.drop (sep.length - 1)).length ≤ rest.length := by
        simp [List.length_drop]
      split
      · rw [ih g _ (le_trans hd hr) (le_trans hd hg)]
      · rw [ih g rest hr hg]

theorem pySplit_nil (sep : List Char) : pySplit sep [] = [[]] := rfl

theorem pySplit_cons (sep : List Char) (c : Char) (rest : List Char) :
    pySplit sep (c :: rest) =
      if sep ≠ [] ∧ sep.isPrefixOf (c :: rest) then
        [] :: pySplit sep (rest.drop (sep.length - 1))
      else
        consHead c (pySplit sep rest) := by
  show pySplitF sep (rest.length + 1) (c :: rest) = _
  rw [pySplitF_succ_cons]
  split
  · rw [pySplitF_eq_of_le sep rest.length (rest.drop (sep.length - 1)).length _
      (by simp [List.length_drop]) le_rfl]
    rfl
  · rfl

theorem pySplit_ne_nil (sep s : List Char) : pySplit sep s ≠ [] :=
  pySplitF_ne_nil sep s.length s

theorem pyJoin_consHead (sep : List Char) (c : Char) (l : List (List Char)) :
    pyJoin sep (consHead c l) = c :: pyJoin sep l := by
  match l with
  | [] => rfl
  | [p] => rfl
  | p :: q :: ps => simp [consHead, pyJoin]

theorem pyJoin_cons_cons (sep : List Char) (p q : List Char) (ps : List (List Char)) :
    pyJoin sep (p :: q :: ps) = p ++ sep ++ pyJoin sep (q :: ps) := rfl

/-- Round trip: rejoining the pieces of a Python split with the separator gives back
the original string. -/
theorem pyJoin_pySplitF (sep : List Char) (hsep : sep ≠ []) :
    ∀ (fuel : Nat) (s : List Char), s.length ≤ fuel →
      pyJoin sep (pySplitF sep fuel s) = s := by
  intro fuel
  induction fuel with
  | zero =>
    intro s h
    have : s = [] := List.length_eq_zero.mp (Nat.le_zero.mp h)
    subst this
    simp [pySplitF_nil, pyJoin]
  | succ f ih =>
    intro s h
    match s with
    | [] => simp [pySplitF_nil, pyJoin]
    | c :: rest =>
      have hr : rest.length ≤ f := by simpa using h
      rw [pySplitF_succ_cons]
      split
      · rename_i hc
        have hpre : sep <+: (c :: rest) := by
          rw [← List.isPrefixOf_iff_prefix]
          exact hc.2
        obtain ⟨t, ht⟩ := hpre
        have hdrop : rest.drop (sep.length - 1) = t := by
          match sep, hsep with
          | a :: as, _ =>
            have ha : a = c ∧ as ++ t = rest := by
              simpa using ht
            simp [← ha.2, List.drop_left]
        obtain ⟨q, qs, hq⟩ :=
          List.exists_cons_of_ne_nil (pySplitF_ne_nil sep f (rest.drop (sep.length - 1)))
        rw [hq, pyJoin_cons_cons]
        rw [← hq, hdrop]
        have hlen : t.length ≤ f := by
          have h1 := congrArg List.length ht
          simp at h1
          have h2 : 1 ≤ sep.length := List.length_pos.mpr hsep
          omega
        rw [ih t hlen]
        simpa using ht
      · rw [pyJoin_consHead, ih rest hr]

theorem pyJoin_pySplit (sep s : List Char) (hsep : sep ≠ []) :
    pyJoin sep (pySplit sep s) = s :=
  pyJoin_pySplitF sep hsep s.length s le_rfl

/-- Head piece of a Python split is a prefix of the string. -/
theorem pySplitF_head_prefix (sep : List Char) :
    ∀ (fuel : Nat) (s : List Char), ((pySplitF sep fuel s).headD []) <+: s := by
  intro fuel
  induction fuel with
  | zero =>
    intro s
    match s with
    | [] => simp [pySplitF_nil]
    | c :: rest => simp [pySplitF]
  | succ f ih =>
    intro s
    match s with
    | [] => simp [pySplitF_nil]
    | c :: rest =>
      rw [pySplitF_succ_cons]
      split
      · simp
      · obtain ⟨q, qs, hq⟩ := List.exists_cons_of_ne_nil (pySplitF_ne_nil sep f rest)
        rw [hq]
        have := ih rest
        rw [hq] at this
        simp only [consHead, List.headD_cons] at this ⊢
        obtain ⟨t, ht⟩ := this
        exact ⟨t, by simp [← ht]⟩

/-- Pieces produced by a Python split never contain the separator. -/
theorem pySplitF_pieces_not_contain (sep : List Char) (hsep : sep ≠ []) :
    ∀ (fuel : Nat) (s : List Char), s.length ≤ fuel →
      ∀ p ∈ pySplitF sep fuel s, pyContains sep p = false := by
  intro fuel
  induction fuel with
  | zero =>
    intro s h p hp
    have : s = [] := List.length_eq_zero.mp (Nat.le_zero.mp h)
    subst this
    rw [pySplitF_nil] at hp
    simp at hp
    subst hp
    simp [pyContains, List.isEmpty_iff, hsep]
  | succ f ih =>
    intro s h p hp
    match s with
    | [] =>
      rw [pySplitF_nil] at hp
      simp at hp
      subst hp
      simp [pyContains, List.isEmpty_iff, hsep]
    | c :: rest =>
      have hr : rest.length ≤ f := by simpa using h
      rw [pySplitF_succ_cons] at hp
      by_cases hc : sep ≠ [] ∧ sep.isPrefixOf (c :: rest)
      · rw [if_pos hc] at hp
        rcases List.mem_cons.mp hp with h1 | h2
        · subst h1
          simp [pyContains, List.isEmpty_iff, hsep]
        · exact ih _ (le_trans (by simp [List.length_drop]) hr) p h2
      · rw [if_neg hc] at hp
        obtain ⟨q, qs, hq⟩ := List.exists_cons_of_ne_nil (pySplitF_ne_nil sep f rest)
        rw [hq] at hp
        simp only [consHead] at hp
        rcases List.mem_cons.mp hp with h1 | h2
        · subst h1
          have hqn : pyContains sep q = false := by
            apply ih rest hr
            rw [hq]; exact List.mem_cons_self q qs
          have hnp : sep.isPrefixOf (c :: q) = false := by
            by_contra hcon
            have hpre : sep <+: (c :: q) := by
              rw [← List.isPrefixOf_iff_prefix]
              simpa using hcon
            have hqpre : q <+: rest := by
              have := pySplitF_head_prefix sep f rest
              rw [hq] at this
              simpa using this
            have : sep <+: (c :: rest) := by
              apply hpre.trans
              obtain ⟨t, ht⟩ := hqpre
              exact ⟨t, by simp [← ht]⟩
            rw [← List.isPrefixOf_iff_prefix] at this
            exact hc ⟨hsep, this⟩
          simp [pyContains, hnp, hqn]
        · apply ih rest hr
          rw [hq]
          exact List.mem_cons_of_mem q h2

theorem pySplit_pieces_not_contain (sep s : List Char) (hsep : sep ≠ []) :
    ∀ p ∈ pySplit sep s, pyContains sep p = false :=
  pySplitF_pieces_not_contain sep hsep s.length s le_rfl

/-- Python substring containment is equivalent to a three-way decomposition. -/
theorem pyContains_iff (pat s : List Char) :
    pyContains pat s = true ↔ ∃ a b, s = a ++ pat ++ b := by
  induction s with
  | nil =>
    simp only [pyContains, List.isEmpty_iff]
    constructor
    · intro h
      exact ⟨[], [], by simp [h]⟩
    · rintro ⟨a, b, hab⟩
      have hlen := congrArg List.length hab
      simp at hlen
      have : pat.length = 0 := by omega
      exact List.length_eq_zero.mp this
  | cons c rest ih =>
    simp only [pyContains, Bool.or_eq_true]
    constructor
    · rintro (h | h)
      · have : pat <+: (c :: rest) := by rwa [← List.isPrefixOf_iff_prefix]
        obtain ⟨t, ht⟩ := this
        exact ⟨[], t, by simp [ht]⟩
      · obtain ⟨a, b, hab⟩ := ih.mp h
        exact ⟨c :: a, b, by simp [hab]⟩
    · rintro ⟨a, b, hab⟩
      match a with
      | [] =>
        left
        rw [List.isPrefixOf_iff_prefix]
        exact ⟨b, by simpa using hab.symm⟩
      | d :: a' =>
        right
        apply ih.mpr
        refine ⟨a', b, ?_⟩
        have : d = c ∧ a' ++ pat ++ b = rest := by simpa using hab.symm
        simp [this.2]

/-- Containment of a single character is list membership. -/
theorem pyContains_singleton (ch : Char) (s : List Char) :
    pyContains [ch] s = true ↔ ch ∈ s := by
  rw [pyContains_iff]
  constructor
  · rintro ⟨a, b, hab⟩
    subst hab
    simp
  · intro h
    obtain ⟨a, b, hab⟩ := List.append_of_mem h
    exact ⟨a, b, by simp [hab]⟩

/-- When a string contains the separator, its Python split has at least two pieces. -/
theorem pySplitF_two_pieces (sep : List Char) (hsep : sep ≠ []) :
    ∀ (fuel : Nat) (s : List Char), s.length ≤ fuel → pyContains sep s = true →
      ∃ p₀ p₁ ps, pySplitF sep fuel s = p₀ :: p₁ :: ps := by
  intro fuel
  induction fuel with
  | zero =>
    intro s h hc
    have : s = [] := List.length_eq_zero.mp (Nat.le_zero.mp h)
    subst this
    simp [pyContains, List.isEmpty_iff, hsep] at hc
  | succ f ih =>
    intro s h hc
    match s with
    | [] => simp [pyContains, List.isEmpty_iff, hsep] at hc
    | c :: rest =>
      have hr : rest.length ≤ f := by simpa using h
      rw [pySplitF_succ_cons]
      by_cases hpre : sep.isPrefixOf (c :: rest)
      · rw [if_pos ⟨hsep, hpre⟩]
        obtain ⟨q, qs, hq⟩ :=
          List.exists_cons_of_ne_nil (pySplitF_ne_nil sep f (rest.drop (sep.length - 1)))
        exact ⟨[], q, qs, by rw [hq]⟩
      · rw [if_neg (by simp [hpre])]
        have hrest : pyContains sep rest = true := by
          have := hc
          simp only [pyContains, Bool.or_eq_true] at this
          rcases this with h1 | h2
          · exact absurd h1 (by simp [hpre])
          · exact h2
        obtain ⟨p₀, p₁, ps, hps⟩ := ih rest hr hrest
        exact ⟨c :: p₀, p₁, ps, by rw [hps]; rfl⟩

theorem pySplit_two_pieces (sep s : List Char) (hsep : sep ≠ []) (hc : pyContains sep s = true) :
    ∃ p₀ p₁ ps, pySplit sep s = p₀ :: p₁ :: ps :=
  pySplitF_two_pieces sep hsep s.length s le_rfl hc

example : pySplit ("id=".toList) ("x?id=A&id=B".toList)
    = ["x?".toList, "A&".toList, "B".toList] := by decide

/-- Value of a spreadsheet cell as handed to the row loop by pandas: a string, an
integer, the float NaN that pandas puts in empty cells, or Python None. -/
inductive CellValue where
  | pyString (s : String)
  | pyInt (n : Int)
  | pyNan
  | pyNone
deriving DecidableEq, Repr

/-- Python str() on a cell value (str(nan) is "nan", str(None) is "None"). -/
def pyStr : CellValue → String
  | .pyString s => s
  | .pyInt n => toString n
  | .pyNan => "nan"
  | .pyNone => "None"

/-- Embedding of drive_downloader.extraer_id_drive (lines 25-42): reject
non-strings and blank strings, then take split("id=")[1] when "id=" occurs,
else split("/d/")[1].split("/")[0] when "/d/" occurs, else None. -/
def extraer_id_drive : CellValue → Option String
  | .pyString s =>
    if s.toList.all Char.isWhitespace then none
    else if pyContains ("id=".toList) s.toList then
      some (String.mk ((pySplit ("id=".toList) s.toList).getD 1 []))
    else if pyContains ("/d/".toList) s.toList then
      some (String.mk
        ((pySplit ("/".toList) ((pySplit ("/d/".toList) s.toList).getD 1 [])).getD 0 []))
    else none
  | _ => none

/-- Embedding of drive_downloader.obtener_token_confirmacion (lines 45-56):
the value of the first cookie whose name starts with "download_warning". -/
def obtener_token_confirmacion (cookies : List (String × String)) : Option String :=
  (cookies.find? (fun kv => ("download_warning".toList).isPrefixOf kv.1.toList)).map
    (fun kv => kv.2)

/-- Embedding of drive_downloader.extraer_extension_de_respuesta (lines 62-75):
parse the Content-Disposition header (empty string when the header is absent,
matching headers.get default), take split("filename=")[1].split(";")[0],
strip quotes, and return the lower-cased pathlib suffix of that file name. -/
def extraer_extension_de_respuesta (contentDisposition : String) : Option String :=
  let cd := contentDisposition.toList
  if pyContains ("filename=".toList) cd then
    let partes := pySplit ("filename=".toList) cd
    if 1 < partes.length then
      let nombre_archivo := stripChars ['"', '\''] ((pySplit [';'] (partes.getD 1 [])).getD 0 [])
      some (String.mk (pyLower (pySuffix (lastComponent nombre_archivo))))
    else none
  else none

/-- Embedding of drive_downloader.detectar_extension_por_contenido (lines 78-112):
compare the first 8 bytes of the file against known magic signatures, in source
order, returning "" when none matches. -/
def detectar_extension_por_contenido (contenido : List Nat) : String :=
  let firma := contenido.take 8
  if ([0x25, 0x50, 0x44, 0x46] : List Nat).isPrefixOf firma then ".pdf"
  else if ([0xff, 0xd8] : List Nat).isPrefixOf firma then ".jpg"
  else if ([0x89, 0x50, 0x4e, 0x47] : List Nat).isPrefixOf firma then ".png"
  else if ([0x50, 0x4b, 0x03, 0x04] : List Nat).isPrefixOf firma then ".xlsx"
  else ""

/-- Extension decision made inside GoogleDriveDownloader.descargar (lines 186-218):
the header-derived extension when truthy, else the byte sniff, else ".pdf". -/
def descargar_detectar_extension (contentDisposition : String) (contenido : List Nat) :
    String :=
  let ext0 := extraer_extension_de_respuesta contentDisposition
  let ext1 :=
    match ext0 with
    | none => detectar_extension_por_contenido contenido
    | some e => if e = "" then detectar_extension_por_contenido contenido else e
  if ext1 = "" then ".pdf" else ext1

/-- Response of one HTTP GET: success flag of raise_for_status, cookie jar in
iteration order, Content-Disposition header value, and body bytes. -/
structure HttpResponse where
  statusOk : Bool
  cookies : List (String × String)
  contentDisposition : String
  body : List Nat
deriving DecidableEq, Repr

/-- Result of session.get: either a transport-level RequestException or a
response (whose raise_for_status may still fail). -/
inductive HttpResult where
  | transportError (msg : String)
  | response (r : HttpResponse)
deriving DecidableEq, Repr

/-- Request issued against the fixed download endpoint: the id parameter and the
optional confirm parameter. -/
structure HttpRequest where
  fileId : String
  confirm : Option String
deriving DecidableEq, Repr

/-- Embedding of GoogleDriveDownloader._obtener_respuesta (lines 134-176) over a
network oracle. Returns the outcome (DownloadError message or final response)
together with the list of GET requests issued, in order. -/
def obtener_respuesta (get : HttpRequest → HttpResult) (fileId : String) :
    Except String HttpResponse × List HttpRequest :=
  match get ⟨fileId, none⟩ with
  | .transportError _ =>
    (.error ("No se pudo iniciar la descarga para " ++ fileId), [⟨fileId, none⟩])
  | .response r1 =>
    if r1.statusOk = false then
      (.error ("No se pudo iniciar la descarga para " ++ fileId), [⟨fileId, none⟩])
    else
      match obtener_token_confirmacion r1.cookies with
      | none => (.ok r1, [⟨fileId, none⟩])
      | some token =>
        if token = "" then (.ok r1, [⟨fileId, none⟩])
        else
          match get ⟨fileId, some token⟩ with
          | .transportError _ =>
            (.error ("No se pudo confirmar la descarga para " ++ fileId),
              [⟨fileId, none⟩, ⟨fileId, some token⟩])
          | .response r2 =>
            if r2.statusOk = false then
              (.error ("No se pudo confirmar la descarga para " ++ fileId),
                [⟨fileId, none⟩, ⟨fileId, some token⟩])
            else (.ok r2, [⟨fileId, none⟩, ⟨fileId, some token⟩])

/-- Filesystem as an association list from path to byte content. -/
def FileSystem : Type := List (String × List Nat)

/-- Content stored at a path, if the file exists. -/
def FileSystem.read (fs : FileSystem) (p : String) : Option (List Nat) :=
  ((fs : List (String × List Nat)).find? (fun e => e.1 == p)).map (fun e => e.2)

/-- Delete a path (no-op when absent, like the guarded unlink in the source). -/
def FileSystem.remove (fs : FileSystem) (p : String) : FileSystem :=
  (fs : List (String × List Nat)).filter (fun e => e.1 != p)

/-- Create or overwrite a file. -/
def FileSystem.write (fs : FileSystem) (p : String) (contenido : List Nat) : FileSystem :=
  ((p, contenido) :: FileSystem.remove fs p : List (String × List Nat))

/-- Embedding of the finalization step of GoogleDriveDownloader.descargar
(lines 220-252): rename when the detected extension is ".pdf", decode-and-save
through PIL when it is ".jpg" or ".png" (the oracle `convertir` is the PIL
pipeline, returning none when it raises) then unlink the temp file, and plain
rename for any other extension. On any exception the temp file is unlinked if
it exists and a DownloadError is raised. `renameOk` tells whether the rename
system call succeeds. -/
def descargar_finalizar (renameOk : Bool) (convertir : List Nat → Option (List Nat))
    (extension_orig : String) (temp_path destino_final : String) (fs : FileSystem) :
    Except String String × FileSystem :=
  if extension_orig = ".jpg" ∨ extension_orig = ".png" then
    match fs.read temp_path with
    | some datos =>
      match convertir datos with
      | some pdf =>
        (.ok destino_final, (FileSystem.write fs destino_final pdf).remove temp_path)
      | none =>
        (.error ("No se pudo guardar el archivo final en " ++ destino_final),
          fs.remove temp_path)
    | none =>
      (.error ("No se pudo guardar el archivo final en " ++ destino_final),
        fs.remove temp_path)
  else
    match fs.read temp_path with
    | some datos =>
      if renameOk then
        (.ok destino_final, (fs.remove temp_path).write destino_final datos)
      else
        (.error ("No se pudo guardar el archivo final en " ++ destino_final),
          fs.remove temp_path)
    | none =>
      (.error ("No se pudo guardar el archivo final en " ++ destino_final),
        fs.remove temp_path)

/-- Pathlib path split into parent directory and final name component, as the
processor builds it (a destination folder joined with a file name). -/
structure PyPath where
  parent : String
  name : String
deriving DecidableEq, Repr

/-- Pathlib with_suffix on such a path: only the name component changes. -/
def PyPath.withSuffix (p : PyPath) (suf : String) : PyPath :=
  ⟨p.parent, String.mk (pyWithSuffix p.name.toList suf.toList)⟩

/-- Final destination computed by GoogleDriveDownloader.descargar (line 221):
destino_base.with_suffix(".pdf"). -/
def descargar_destino_final (destino_base : PyPath) : PyPath :=
  destino_base.withSuffix ".pdf"

/-- Temporary path computed by GoogleDriveDownloader.descargar (line 191):
destino_base.with_suffix(".tmp"). -/
def descargar_temp_path (destino_base : PyPath) : PyPath :=
  destino_base.withSuffix ".tmp"

example : extraer_id_drive (.pyString "x?id=ABC123") = some "ABC123" := by decide
example : extraer_id_drive (.pyString "x?foo=1&id=ABC123") = some "ABC123" := by decide
example : extraer_id_drive (.pyString "https://drive.example.com/file/d/1a2b3c/view")
    = some "1a2b3c" := by decide
example : extraer_id_drive (.pyString "") = none := by decide
example : extraer_id_drive .pyNone = none := by decide
example : extraer_id_drive (.pyString "https://example.com/plain") = none := by decide
example : extraer_id_drive (.pyString "x?id=A&id=B") = some "A&" := by decide
example : extraer_extension_de_respuesta "attachment; filename=\"planilla.PDF\"; x=1"
    = some ".pdf" := by decide
example : extraer_extension_de_respuesta "" = none := by decide
example : detectar_extension_por_contenido [0x25, 0x50, 0x44, 0x46, 0x2d] = ".pdf" := by
  decide
example : detectar_extension_por_contenido [0x50, 0x4b, 0x03, 0x04] = ".xlsx" := by decide
example : detectar_extension_por_contenido [0x00, 0x01] = "" := by decide
example : descargar_detectar_extension "" [0x00, 0x01] = ".pdf" := by decide
example : descargar_destino_final ⟨"out/OSDE", "planilla de asistencia enero Juan P. Perez"⟩
    = ⟨"out/OSDE", "planilla de asistencia enero Juan P.pdf"⟩ := by decide
example : pySplit ("/d/".toList) ("a/d/tok/view".toList)
    = ["a".toList, "tok/view".toList] := by decide
example : pyContains ("NO".toList) (pyUpper ("Osde pero no".toList)) = true := by decide
example : pyWithSuffix ("a b. c".toList) (".pdf".toList) = "a b.pdf".toList := by decide
example : pyWithSuffix ("abc".toList) (".pdf".toList) = "abc.pdf".toList := by decide
example : stripChars ['"', '\''] ("\"planilla.pdf\"".toList) = "planilla.pdf".toList := by
  decide

/-- Embedding of DownloadConfig (models/config.py, plus the `mes` period label
that backend/logic/core/processor.py line 175 reads from its config; the
backend's own config module is not under src/, so `mes` is taken from the spec's
"period label" and the call sites, default "diciembre" as in app.py). -/
structure DownloadConfig where
  excel_path : String
  output_dir : String
  osde_subdir : String := "OSDE"
  non_osde_subdir : String := "NO es osde"
  nombre_col : String := "NOMBRE Y APELLIDO"
  categoria_col : String := "osde - no osde"
  link_col : String := "planilla"
  mes : String := "diciembre"
deriving DecidableEq, Repr

/-- Condition tested by processor.seleccionar_carpeta_destino (line 105):
`"OSDE" in categoria and "NO" not in categoria` over the uppercased str() of
the cell value. -/
def es_osde (categoria_valor : CellValue) : Bool :=
  let categoria := pyUpper (pyStr categoria_valor).toList
  pyContains ("OSDE".toList) categoria && !(pyContains ("NO".toList) categoria)

/-- Embedding of processor.seleccionar_carpeta_destino (lines 93-107): uppercase
str() of the cell value; OSDE folder iff it contains "OSDE" and not "NO". -/
def seleccionar_carpeta_destino (categoria_valor : CellValue)
    (osde_path no_osde_path : String) : String :=
  if es_osde categoria_valor then osde_path else no_osde_path

/-- One spreadsheet row, restricted to the three columns the row loop reads. -/
structure InputRow where
  nombre : CellValue
  categoria : CellValue
  link : CellValue
deriving DecidableEq, Repr

/-- Loaded spreadsheet: its column names and its rows in file order. -/
structure ExcelTable where
  columnas : List String
  filas : List InputRow
deriving DecidableEq, Repr

/-- External effects the processor depends on: directory creation, spreadsheet
existence and parse (none models a read_excel exception), and the downloader
(descargar, whose errors are the DownloadError messages it raises). -/
structure ProcessorEnv where
  mkdirOk : String → Bool
  excelExists : Bool
  leerExcel : Option ExcelTable
  descargar : String → PyPath → Except String String

/-- One invocation of the progress callback, as PlanillaProcessor.procesar makes
it: callback(i + 1, total, nombre, status, error_msg, category_label). -/
structure ProgressCall where
  current : Nat
  total : Nat
  nombre : CellValue
  status : String
  errorMsg : Option String
  categoria : String
deriving DecidableEq, Repr

/-- Summary dictionary returned by PlanillaProcessor.procesar (lines 199-205). -/
structure RunSummary where
  total : Nat
  exitos : Nat
  fallos : Nat
  resumen : String
deriving DecidableEq, Repr

/-- Summary line built at processor line 196. -/
def resumen_str (exitos fallos total : Nat) : String :=
  "📊 Proceso terminado. Éxitos: " ++ toString exitos ++ ", Fallos: " ++ toString fallos
    ++ ", Total: " ++ toString total

/-- File name base built at processor line 175: the fixed prefix, the period
label and str() of the row's name cell. -/
def nombre_archivo_base (mes : String) (nombre : CellValue) : String :=
  "planilla de asistencia " ++ mes ++ " " ++ pyStr nombre

/-- Body of the row loop of PlanillaProcessor.procesar (lines 152-192) for one
row: classify the destination folder, resolve the link, download, and return
the progress-callback record together with whether the row succeeded. -/
def procesar_fila (dl : String → PyPath → Except String String) (mes : String)
    (osde_path no_osde_path : String) (total i : Nat) (row : InputRow) :
    ProgressCall × Bool :=
  let carpeta_destino := seleccionar_carpeta_destino row.categoria osde_path no_osde_path
  let category_label := if carpeta_destino = osde_path then "OSDE" else "NO OSDE"
  let linkError : ProgressCall × Bool :=
    (⟨i + 1, total, row.nombre, "error",
      some ("No se pudo leer el link de la planilla para: " ++ pyStr row.nombre),
      category_label⟩, false)
  match extraer_id_drive row.link with
  | none => linkError
  | some fid =>
    if fid = "" then linkError
    else
      let destino_base : PyPath := ⟨carpeta_destino, nombre_archivo_base mes row.nombre⟩
      match dl fid destino_base with
      | .ok _ => (⟨i + 1, total, row.nombre, "success", none, category_label⟩, true)
      | .error e => (⟨i + 1, total, row.nombre, "error", some e, category_label⟩, false)

/-- Row loop of PlanillaProcessor.procesar: fold over the remaining rows starting
at index i, returning (exitos, fallos, callback invocations in order). -/
def procesar_filas (dl : String → PyPath → Except String String) (mes : String)
    (osde_path no_osde_path : String) (total : Nat) :
    Nat → List InputRow → Nat × Nat × List ProgressCall
  | _, [] => (0, 0, [])
  | i, row :: rest =>
    let paso := procesar_fila dl mes osde_path no_osde_path total i row
    let resto := procesar_filas dl mes osde_path no_osde_path total (i + 1) rest
    ((if paso.2 then resto.1 + 1 else resto.1),
     (if paso.2 then resto.2.1 else resto.2.1 + 1),
     paso.1 :: resto.2.2)

/-- Embedding of processor.preparar_carpetas (lines 23-48): build both output
folders and fail with ConfigError when a mkdir fails, in source order. -/
def preparar_carpetas (config : DownloadConfig) (mkdirOk : String → Bool) :
    Except String (String × String) :=
  if mkdirOk (config.output_dir ++ "/" ++ config.osde_subdir) = false then
    .error ("No se pudo crear la carpeta "
      ++ (config.output_dir ++ "/" ++ config.osde_subdir))
  else if mkdirOk (config.output_dir ++ "/" ++ config.non_osde_subdir) = false then
    .error ("No se pudo crear la carpeta "
      ++ (config.output_dir ++ "/" ++ config.non_osde_subdir))
  else
    .ok (config.output_dir ++ "/" ++ config.osde_subdir,
      config.output_dir ++ "/" ++ config.non_osde_subdir)

/-- Embedding of processor.cargar_excel (lines 51-91): missing file, unreadable
file, or missing required columns each raise ConfigError. (The source collects
the missing names in a Python set; only membership matters here, so the message
joins them in list order.) -/
def cargar_excel (config : DownloadConfig) (excelExists : Bool)
    (leerExcel : Option ExcelTable) : Except String ExcelTable :=
  if excelExists = false then
    .error ("No se encontró el archivo de Excel: " ++ config.excel_path)
  else
    match leerExcel with
    | none => .error "No se pudo leer el archivo de Excel"
    | some df =>
      if ([config.nombre_col, config.categoria_col, config.link_col].filter
          (fun c => !(df.columnas.contains c))).isEmpty then .ok df
      else .error ("Faltan columnas obligatorias en el Excel: "
        ++ String.intercalate ", "
            ([config.nombre_col, config.categoria_col, config.link_col].filter
              (fun c => !(df.columnas.contains c))))

/-- Embedding of PlanillaProcessor.procesar (backend/logic/core/processor.py,
lines 132-205): setup (folders, spreadsheet), then the row loop. Returns the
outcome (ConfigError message or summary) paired with the list of progress
callback invocations; a setup failure propagates before the loop starts, so its
trace is empty. -/
def procesar (config : DownloadConfig) (env : ProcessorEnv) :
    Except String RunSummary × List ProgressCall :=
  match preparar_carpetas config env.mkdirOk with
  | .error e => (.error e, [])
  | .ok (osde_path, no_osde_path) =>
    match cargar_excel config env.excelExists env.leerExcel with
    | .error e => (.error e, [])
    | .ok df =>
      (.ok ⟨df.filas.length,
          (procesar_filas env.descargar config.mes osde_path no_osde_path
            df.filas.length 0 df.filas).1,
          (procesar_filas env.descargar config.mes osde_path no_osde_path
            df.filas.length 0 df.filas).2.1,
          resumen_str
            (procesar_filas env.descargar config.mes osde_path no_osde_path
              df.filas.length 0 df.filas).1
            (procesar_filas env.descargar config.mes osde_path no_osde_path
              df.filas.length 0 df.filas).2.1
            df.filas.length⟩,
        (procesar_filas env.descargar config.mes osde_path no_osde_path
          df.filas.length 0 df.filas).2.2)

instance : DecidableEq FileSystem :=
  inferInstanceAs (DecidableEq (List (String × List Nat)))

theorem FileSystem.read_write_self (fs : FileSystem) (p : String) (v : List Nat) :
    (fs.write p v).read p = some v := by
  simp [FileSystem.read, FileSystem.write, List.find?]

theorem FileSystem.read_remove_self (fs : FileSystem) (p : String) :
    (fs.remove p).read p = none := by
  have key : List.find? (fun e => e.1 == p) (List.filter (fun e => e.1 != p) fs) = none := by
    induction fs with
    | nil => rfl
    | cons e rest ih =>
      by_cases h : e.1 = p
      · have h1 : (e.1 != p) = false := by simp [h]
        rw [List.filter_cons, h1, if_neg Bool.false_ne_true]
        exact ih
      · have h1 : (e.1 != p) = true := by simp [h]
        rw [List.filter_cons, h1, if_pos rfl, List.find?_cons_of_neg _ (by simp [h])]
        exact ih
  show (List.find? _ (List.filter _ _)).map _ = none
  rw [key]
  rfl

theorem find?_filter_ne (l : List (String × List Nat)) (p q : String) (h : p ≠ q) :
    List.find? (fun e => e.1 == p) (l.filter (fun e => e.1 != q)) =
      List.find? (fun e => e.1 == p) l := by
  induction l with
  | nil => rfl
  | cons e rest ih =>
    by_cases he : e.1 = q
    · have h1 : (e.1 != q) = false := by simp [he]
      have h2 : (e.1 == p) = false := by
        simp only [beq_eq_false_iff_ne, ne_eq, he]
        exact fun hc => h hc.symm
      rw [List.filter_cons, h1, if_neg Bool.false_ne_true,
        List.find?_cons_of_neg _ (by simp [h2]), ih]
    · have h1 : (e.1 != q) = true := by simp [he]
      rw [List.filter_cons, h1, if_pos rfl]
      by_cases hp : e.1 = p
      · rw [List.find?_cons_of_pos _ (by simp [hp]), List.find?_cons_of_pos _ (by simp [hp])]
      · rw [List.find?_cons_of_neg _ (by simp [hp]), List.find?_cons_of_neg _ (by simp [hp]),
          ih]

theorem FileSystem.read_remove_of_ne (fs : FileSystem) (p q : String) (h : p ≠ q) :
    (fs.remove q).read p = fs.read p := by
  show (List.find? (fun e => e.1 == p) (List.filter (fun e => e.1 != q) fs)).map
      (fun e => e.2) = (List.find? (fun e => e.1 == p) fs).map (fun e => e.2)
  rw [find?_filter_ne fs p q h]

/-- C7: if any exception occurs while finalizing or converting the downloaded
temporary file, the temporary file is deleted and a DownloadError (with the
"No se pudo guardar el archivo final" message) is raised, for every extension,
oracle behaviour and starting filesystem. -/
theorem descargar_finalizar_limpia_temp (renameOk : Bool)
    (convertir : List Nat → Option (List Nat)) (extension_orig temp_path destino_final : String)
    (fs : FileSystem) (e : String) (fs' : FileSystem)
    (h : descargar_finalizar renameOk convertir extension_orig temp_path destino_final fs
          = (.error e, fs')) :
    fs'.read temp_path = none ∧
      e = "No se pudo guardar el archivo final en " ++ destino_final := by
  unfold descargar_finalizar at h
  split at h
  · split at h
    · split at h
      · simp at h
      · simp only [Prod.mk.injEq, Except.error.injEq] at h
        exact ⟨h.2 ▸ FileSystem.read_remove_self fs temp_path, h.1.symm⟩
    · simp only [Prod.mk.injEq, Except.error.injEq] at h
      exact ⟨h.2 ▸ FileSystem.read_remove_self fs temp_path, h.1.symm⟩
  · split at h
    · split at h
      · simp at h
      · simp only [Prod.mk.injEq, Except.error.injEq] at h
        exact ⟨h.2 ▸ FileSystem.read_remove_self fs temp_path, h.1.symm⟩
    · simp only [Prod.mk.injEq, Except.error.injEq] at h
      exact ⟨h.2 ▸ FileSystem.read_remove_self fs temp_path, h.1.symm⟩

/-- C7 witness: a concrete PIL failure on a jpg temp file leaves no temp file
behind and surfaces the DownloadError message. -/
theorem descargar_finalizar_limpia_temp_witness :
    (FileSystem.read ([] : FileSystem) "b.tmp" = none ∧
      "No se pudo guardar el archivo final en b.pdf"
        = "No se pudo guardar el archivo final en " ++ "b.pdf") :=
  descargar_finalizar_limpia_temp true (fun _ => none) ".jpg" "b.tmp" "b.pdf"
    ([("b.tmp", [1, 2])] : FileSystem) _ _ rfl

/-- C8: when the detected extension is already ".pdf" and the rename succeeds,
finalization is a pure rename: it succeeds, the final file holds exactly the
downloaded bytes, the temp file is gone, and no conversion oracle is consulted
(the result is the same for every `convertir`). -/
theorem descargar_finalizar_pdf_puro (convertir : List Nat → Option (List Nat))
    (temp_path destino_final : String) (fs : FileSystem) (datos : List Nat)
    (hread : fs.read temp_path = some datos) :
    descargar_finalizar true convertir ".pdf" temp_path destino_final fs
        = (.ok destino_final, (fs.remove temp_path).write destino_final datos) ∧
      ((fs.remove temp_path).write destino_final datos).read destino_final = some datos ∧
      (temp_path ≠ destino_final →
        ((fs.remove temp_path).write destino_final datos).read temp_path = none) := by
  refine ⟨?_, FileSystem.read_write_self _ _ _, ?_⟩
  · unfold descargar_finalizar
    rw [if_neg (by simp), hread]
    rfl
  · intro hne
    have h1 : ((FileSystem.remove fs temp_path).remove destino_final).read temp_path
        = none := by
      rw [FileSystem.read_remove_of_ne _ _ _ hne]
      exact FileSystem.read_remove_self fs temp_path
    show (List.find? (fun e => e.1 == temp_path)
        ((destino_final, datos) ::
          (FileSystem.remove fs temp_path).remove destino_final)).map (fun e => e.2) = none
    rw [List.find?_cons_of_neg _ (by simp only [beq_iff_eq]; exact fun hc => hne hc.symm)]
    exact h1

/-- C8 witness: a concrete pdf temp file is renamed byte-identically. -/
theorem descargar_finalizar_pdf_puro_witness :
    descargar_finalizar true (fun _ => none) ".pdf" "b.tmp" "b.pdf"
        ([("b.tmp", [37, 80, 68, 70])] : FileSystem)
        = (.ok "b.pdf",
            (FileSystem.remove ([("b.tmp", [37, 80, 68, 70])] : FileSystem)
              "b.tmp").write "b.pdf" [37, 80, 68, 70]) ∧
      ((FileSystem.remove ([("b.tmp", [37, 80, 68, 70])] : FileSystem)
          "b.tmp").write "b.pdf" [37, 80, 68, 70]).read "b.pdf" = some [37, 80, 68, 70] ∧
      ("b.tmp" ≠ "b.pdf" →
        ((FileSystem.remove ([("b.tmp", [37, 80, 68, 70])] : FileSystem)
            "b.tmp").write "b.pdf" [37, 80, 68, 70]).read "b.tmp" = none) :=
  descargar_finalizar_pdf_puro (fun _ => none) "b.tmp" "b.pdf"
    ([("b.tmp", [37, 80, 68, 70])] : FileSystem) [37, 80, 68, 70] rfl

theorem es_osde_iff (v : CellValue) :
    es_osde v = true ↔
      (pyContains ("OSDE".toList) (pyUpper (pyStr v).toList) = true ∧
       pyContains ("NO".toList) (pyUpper (pyStr v).toList) = false) := by
  show (pyContains ("OSDE".toList) (pyUpper (pyStr v).toList) &&
      !(pyContains ("NO".toList) (pyUpper (pyStr v).toList))) = true ↔ _
  rw [Bool.and_eq_true, Bool.not_eq_true']

/-- C6: seleccionar_carpeta_destino uppercases the category value and returns the
OSDE folder exactly when the result contains "OSDE" and not "NO"; in particular
"no osde" and "Osde pero no" go to the NO-OSDE folder and "OSDE" to the OSDE
folder, and the choice only depends on the category string. -/
theorem seleccionar_carpeta_destino_clasificacion (osde_path no_osde_path : String)
    (h : osde_path ≠ no_osde_path) :
    seleccionar_carpeta_destino (.pyString "no osde") osde_path no_osde_path
        = no_osde_path ∧
    seleccionar_carpeta_destino (.pyString "OSDE") osde_path no_osde_path = osde_path ∧
    seleccionar_carpeta_destino (.pyString "Osde pero no") osde_path no_osde_path
        = no_osde_path ∧
    (∀ v : CellValue, seleccionar_carpeta_destino v osde_path no_osde_path = osde_path ↔
      (pyContains ("OSDE".toList) (pyUpper (pyStr v).toList) = true ∧
       pyContains ("NO".toList) (pyUpper (pyStr v).toList) = false)) ∧
    (∀ v w : CellValue, pyStr v = pyStr w →
      seleccionar_carpeta_destino v osde_path no_osde_path
        = seleccionar_carpeta_destino w osde_path no_osde_path) := by
  have h' : no_osde_path ≠ osde_path := Ne.symm h
  refine ⟨?_, ?_, ?_, ?_, ?_⟩
  · have hb : es_osde (.pyString "no osde") = false := by decide
    simp [seleccionar_carpeta_destino, hb]
  · have hb : es_osde (.pyString "OSDE") = true := by decide
    simp [seleccionar_carpeta_destino, hb]
  · have hb : es_osde (.pyString "Osde pero no") = false := by decide
    simp [seleccionar_carpeta_destino, hb]
  · intro v
    unfold seleccionar_carpeta_destino
    by_cases hb : es_osde v = true
    · rw [if_pos hb]
      exact ⟨fun _ => (es_osde_iff v).mp hb, fun _ => rfl⟩
    · rw [if_neg hb]
      constructor
      · intro hcon
        exact absurd hcon h'
      · intro hpc
        exact absurd ((es_osde_iff v).mpr hpc) hb
  · intro v w hvw
    simp only [seleccionar_carpeta_destino, es_osde, hvw]

/-- C6 witness: the three scenario values at concrete folder paths. -/
theorem seleccionar_carpeta_destino_clasificacion_witness :
    seleccionar_carpeta_destino (.pyString "no osde") "salida/OSDE" "salida/NO es osde"
      = "salida/NO es osde" :=
  (seleccionar_carpeta_destino_clasificacion "salida/OSDE" "salida/NO es osde"
    (by decide)).1

/-- C10: seleccionar_carpeta_destino is total over arbitrary cell values: every
value is classified to one of the two folders, the classification factors
through str() of the value, values whose uppercased string form fail the
OSDE-and-not-NO test go to the NO-OSDE folder, and in particular NaN (empty
cell), a number and None all go to the NO-OSDE folder. -/
theorem seleccionar_carpeta_destino_total (osde_path no_osde_path : String) :
    (∀ v : CellValue, seleccionar_carpeta_destino v osde_path no_osde_path = osde_path ∨
      seleccionar_carpeta_destino v osde_path no_osde_path = no_osde_path) ∧
    (∀ v : CellValue, seleccionar_carpeta_destino v osde_path no_osde_path
      = seleccionar_carpeta_destino (.pyString (pyStr v)) osde_path no_osde_path) ∧
    (∀ v : CellValue, es_osde v = false →
      seleccionar_carpeta_destino v osde_path no_osde_path = no_osde_path) ∧
    seleccionar_carpeta_destino .pyNan osde_path no_osde_path = no_osde_path ∧
    seleccionar_carpeta_destino (.pyInt 5) osde_path no_osde_path = no_osde_path ∧
    seleccionar_carpeta_destino .pyNone osde_path no_osde_path = no_osde_path := by
  refine ⟨?_, ?_, ?_, ?_, ?_, ?_⟩
  · intro v
    cases hv : es_osde v <;> simp [seleccionar_carpeta_destino, hv]
  · intro v
    rfl
  · intro v hv
    simp [seleccionar_carpeta_destino, hv]
  · have hb : es_osde .pyNan = false := by decide
    simp [seleccionar_carpeta_destino, hb]
  · have hb : es_osde (.pyInt 5) = false := by decide
    simp [seleccionar_carpeta_destino, hb]
  · have hb : es_osde .pyNone = false := by decide
    simp [seleccionar_carpeta_destino, hb]

/-- C10 witness: the NaN of an empty cell is classified to the NO-OSDE folder. -/
theorem seleccionar_carpeta_destino_total_witness :
    seleccionar_carpeta_destino .pyNan "salida/OSDE" "salida/NO es osde"
      = "salida/NO es osde" :=
  (seleccionar_carpeta_destino_total "salida/OSDE" "salida/NO es osde").2.2.1 .pyNan
    (by decide)

/-- C4: the detected extension of a fetched file is the header-derived extension
when that yields something, else the byte-sniff over the first 8 bytes with the
%PDF, 0xFFD8, 0x89PNG, PK\x03\x04 precedence, else the default ".pdf"; and the
byte sniff maps each signature to its extension and unknown bytes to "". -/
theorem descargar_detectar_extension_spec :
    (∀ (cd : String) (contenido : List Nat) (e : String),
      extraer_extension_de_respuesta cd = some e → e ≠ "" →
      descargar_detectar_extension cd contenido = e) ∧
    (∀ (cd : String) (contenido : List Nat),
      (extraer_extension_de_respuesta cd = none ∨
       extraer_extension_de_respuesta cd = some "") →
      detectar_extension_por_contenido contenido ≠ "" →
      descargar_detectar_extension cd contenido = detectar_extension_por_contenido contenido) ∧
    (∀ (cd : String) (contenido : List Nat),
      (extraer_extension_de_respuesta cd = none ∨
       extraer_extension_de_respuesta cd = some "") →
      detectar_extension_por_contenido contenido = "" →
      descargar_detectar_extension cd contenido = ".pdf") ∧
    (∀ bs : List Nat, detectar_extension_por_contenido ([0x25, 0x50, 0x44, 0x46] ++ bs)
      = ".pdf") ∧
    (∀ bs : List Nat, detectar_extension_por_contenido ([0xff, 0xd8] ++ bs) = ".jpg") ∧
    (∀ bs : List Nat, detectar_extension_por_contenido ([0x89, 0x50, 0x4e, 0x47] ++ bs)
      = ".png") ∧
    (∀ bs : List Nat, detectar_extension_por_contenido ([0x50, 0x4b, 0x03, 0x04] ++ bs)
      = ".xlsx") ∧
    detectar_extension_por_contenido [0x00, 0x01, 0x02, 0x03] = "" ∧
    extraer_extension_de_respuesta "attachment; filename=\"planilla.PDF\"; x=1"
      = some ".pdf" := by
  refine ⟨?_, ?_, ?_, ?_, ?_, ?_, ?_, by decide, by decide⟩
  · intro cd contenido e he hne
    unfold descargar_detectar_extension
    rw [he]
    simp [hne]
  · intro cd contenido hh hs
    unfold descargar_detectar_extension
    rcases hh with hh | hh <;> rw [hh] <;> simp [hs]
  · intro cd contenido hh hs
    unfold descargar_detectar_extension
    rcases hh with hh | hh <;> rw [hh] <;> simp [hs]
  · intro bs
    unfold detectar_extension_por_contenido
    rw [if_pos]
    rw [List.take_append_eq_append_take]
    rw [List.isPrefixOf_iff_prefix]
    exact List.prefix_append _ _
  · intro bs
    unfold detectar_extension_por_contenido
    rw [List.take_append_eq_append_take]
    rw [if_neg (by simp [List.isPrefixOf]), if_pos]
    rw [List.isPrefixOf_iff_prefix]
    exact List.prefix_append _ _
  · intro bs
    unfold detectar_extension_por_contenido
    rw [List.take_append_eq_append_take]
    rw [if_neg (by simp [List.isPrefixOf]), if_neg (by simp [List.isPrefixOf]), if_pos]
    rw [List.isPrefixOf_iff_prefix]
    exact List.prefix_append _ _
  · intro bs
    unfold detectar_extension_por_contenido
    rw [List.take_append_eq_append_take]
    rw [if_neg (by simp [List.isPrefixOf]), if_neg (by simp [List.isPrefixOf]),
      if_neg (by simp [List.isPrefixOf]), if_pos]
    rw [List.isPrefixOf_iff_prefix]
    exact List.prefix_append _ _

/-- C4 witness: a header that yields nothing and an unknown signature fall back
to the ".pdf" default. -/
theorem descargar_detectar_extension_spec_witness :
    descargar_detectar_extension "" [0x00, 0x01, 0x02, 0x03] = ".pdf" :=
  descargar_detectar_extension_spec.2.2.1 "" [0x00, 0x01, 0x02, 0x03]
    (Or.inl (by decide)) (by decide)

/-- Concrete first response carrying a download_warning cookie whose value is
empty. -/
def respuesta_cookie_vacia : HttpResponse :=
  ⟨true, [("download_warning_x", "")], "", []⟩

/-- Network oracle answering every GET with `respuesta_cookie_vacia`. -/
def red_cookie_vacia : HttpRequest → HttpResult :=
  fun _ => .response respuesta_cookie_vacia

/-- C5 counterexample: the first response carries a cookie whose name starts
with download_warning, yet no second GET with a confirm parameter is issued
(the request trace is the single unconfirmed GET), because the cookie's value
is empty and `if not token` treats it as absent. -/
theorem obtener_respuesta_cookie_vacia_cex :
    (∃ kv ∈ respuesta_cookie_vacia.cookies,
      ("download_warning".toList).isPrefixOf kv.1.toList = true) ∧
    obtener_respuesta red_cookie_vacia "FID"
      = (.ok respuesta_cookie_vacia, [⟨"FID", none⟩]) := by
  constructor
  · exact ⟨("download_warning_x", ""), by decide, by decide⟩
  · rfl

/-- C5 (amended): the fetch handshake always issues the unconfirmed GET first; a
second GET carrying confirm=token is issued iff the first GET succeeds and the
first download_warning cookie has a non-empty value; any transport error or bad
status at either step yields one of the two DownloadError messages, and those
are the only error values the caller can see. -/
theorem obtener_respuesta_spec (get : HttpRequest → HttpResult) (fileId : String) :
    ((obtener_respuesta get fileId).2.head? = some ⟨fileId, none⟩) ∧
    (∀ m, get ⟨fileId, none⟩ = .transportError m →
      obtener_respuesta get fileId
        = (.error ("No se pudo iniciar la descarga para " ++ fileId), [⟨fileId, none⟩])) ∧
    (∀ r1, get ⟨fileId, none⟩ = .response r1 → r1.statusOk = false →
      obtener_respuesta get fileId
        = (.error ("No se pudo iniciar la descarga para " ++ fileId), [⟨fileId, none⟩])) ∧
    (∀ r1, get ⟨fileId, none⟩ = .response r1 → r1.statusOk = true →
      (((obtener_respuesta get fileId).2 = [⟨fileId, none⟩] ↔
        (obtener_token_confirmacion r1.cookies = none ∨
         obtener_token_confirmacion r1.cookies = some "")) ∧
       (∀ tok, obtener_token_confirmacion r1.cookies = some tok → tok ≠ "" →
         (obtener_respuesta get fileId).2 = [⟨fileId, none⟩, ⟨fileId, some tok⟩]) ∧
       ((obtener_token_confirmacion r1.cookies = none ∨
         obtener_token_confirmacion r1.cookies = some "") →
         obtener_respuesta get fileId = (.ok r1, [⟨fileId, none⟩])))) ∧
    (∀ e, (obtener_respuesta get fileId).1 = .error e →
      e = "No se pudo iniciar la descarga para " ++ fileId ∨
      e = "No se pudo confirmar la descarga para " ++ fileId) := by
  refine ⟨?_, ?_, ?_, ?_, ?_⟩
  · unfold obtener_respuesta
    cases hg : get ⟨fileId, none⟩ with
    | transportError m => rfl
    | response r1 =>
      dsimp only
      cases hok : r1.statusOk with
      | false => rfl
      | true =>
        rw [if_neg (by simp)]
        cases ht : obtener_token_confirmacion r1.cookies with
        | none => rfl
        | some tok =>
          dsimp only
          by_cases he : tok = ""
          · rw [if_pos he]
            rfl
          · rw [if_neg he]
            cases hg2 : get ⟨fileId, some tok⟩ with
            | transportError m2 => rfl
            | response r2 =>
              dsimp only
              cases r2.statusOk <;> rfl
  · intro m hm
    unfold obtener_respuesta
    rw [hm]
  · intro r1 h1 hok
    unfold obtener_respuesta
    rw [h1]
    dsimp only
    rw [hok, if_pos rfl]
  · intro r1 h1 hok
    unfold obtener_respuesta
    rw [h1]
    dsimp only
    rw [hok, if_neg (by simp)]
    cases ht : obtener_token_confirmacion r1.cookies with
    | none =>
      dsimp only
      refine ⟨by simp, ?_, fun _ => rfl⟩
      intro tok htok
      simp at htok
    | some tok =>
      dsimp only
      by_cases he : tok = ""
      · subst he
        rw [if_pos rfl]
        refine ⟨by simp, ?_, fun _ => rfl⟩
        intro tok' htok' hne'
        cases htok'
        exact absurd rfl hne'
      · rw [if_neg he]
        refine ⟨?_, ?_, ?_⟩
        · cases hg2 : get ⟨fileId, some tok⟩ with
          | transportError m2 => simp [he]
          | response r2 =>
            dsimp only
            cases hok2 : r2.statusOk <;> simp [he]
        · intro tok' htok' _
          cases htok'
          cases hg2 : get ⟨fileId, some tok⟩ with
          | transportError m2 => rfl
          | response r2 =>
            dsimp only
            cases r2.statusOk <;> rfl
        · intro hcon
          rcases hcon with hcon | hcon
          · simp at hcon
          · cases hcon
            exact absurd rfl he
  · intro e
    unfold obtener_respuesta
    cases hg : get ⟨fileId, none⟩ with
    | transportError m =>
      intro h
      exact Or.inl (Except.error.inj h).symm
    | response r1 =>
      dsimp only
      cases hok : r1.statusOk with
      | false =>
        rw [if_pos rfl]
        intro h
        exact Or.inl (Except.error.inj h).symm
      | true =>
        rw [if_neg (by simp)]
        cases ht : obtener_token_confirmacion r1.cookies with
        | none =>
          intro h
          simp at h
        | some tok =>
          dsimp only
          by_cases he : tok = ""
          · rw [if_pos he]
            intro h
            simp at h
          · rw [if_neg he]
            cases hg2 : get ⟨fileId, some tok⟩ with
            | transportError m2 =>
              intro h
              exact Or.inr (Except.error.inj h).symm
            | response r2 =>
              dsimp only
              cases hok2 : r2.statusOk with
              | false =>
                rw [if_pos rfl]
                intro h
                exact Or.inr (Except.error.inj h).symm
              | true =>
                rw [if_neg (by simp)]
                intro h
                simp at h

/-- C5 witness for the amended handshake: on a cookie with a non-empty token the
second GET is issued with confirm=token. -/
theorem obtener_respuesta_spec_witness :
    (obtener_respuesta
      (fun _ => .response ⟨true, [("download_warning_x", "T0K")], "", []⟩) "FID").2
      = [⟨"FID", none⟩, ⟨"FID", some "T0K"⟩] :=
  ((obtener_respuesta_spec
      (fun _ => .response ⟨true, [("download_warning_x", "T0K")], "", []⟩) "FID").2.2.2.1
    ⟨true, [("download_warning_x", "T0K")], "", []⟩ rfl rfl).2.1 "T0K" (by decide)
    (by decide)

/-- Tail of a Python join after its first piece: empty when there are no further
pieces, otherwise the separator followed by the join of the rest. -/
def colaJoin (sep : List Char) : List (List Char) → List Char
  | [] => []
  | q :: qs => sep ++ pyJoin sep (q :: qs)

theorem pyJoin_cons (sep p : List Char) (ps : List (List Char)) :
    pyJoin sep (p :: ps) = p ++ colaJoin sep ps := by
  cases ps with
  | nil => simp [pyJoin, colaJoin]
  | cons q qs => simp [pyJoin, colaJoin, pyJoin_cons_cons]

theorem colaJoin_nil_or_sep (sep : List Char) (ps : List (List Char)) :
    colaJoin sep ps = [] ∨ sep.isPrefixOf (colaJoin sep ps) = true := by
  cases ps with
  | nil => exact Or.inl rfl
  | cons q qs =>
    right
    rw [List.isPrefixOf_iff_prefix]
    exact List.prefix_append _ _

/-- C3 counterexample: "x?id=A&id=B" contains "id=", and everything after the
first occurrence up to end-of-string is "A&id=B", yet extraer_id_drive returns
"A&" (Python split("id=")[1] stops at the next "id="). -/
theorem extraer_id_drive_cex :
    pyContains ("id=".toList) ("x?id=A&id=B".toList) = true ∧
    ("x?id=A&id=B".toList
      = "x?".toList ++ "id=".toList ++ "A&id=B".toList) ∧
    extraer_id_drive (.pyString "x?id=A&id=B") = some "A&" ∧
    some ("A&" : String) ≠ some ("A&id=B" : String) := by
  refine ⟨by decide, by decide, by decide, by decide⟩

/-- C3 (amended): for a string containing "id=", the token is the segment
strictly between the first occurrence of "id=" and the next occurrence (end of
string when there is none); for a string containing "/d/" but not "id=", the
token is the segment between the first "/d/" and the next "/"; the markers are
tried in that order; non-string, empty and marker-free inputs give none, and the
spec's concrete examples hold. -/
theorem extraer_id_drive_spec :
    (∀ s : String, pyContains ("id=".toList) s.toList = true →
      ∃ (tok : String) (antes resto : List Char),
        extraer_id_drive (.pyString s) = some tok ∧
        s.toList = antes ++ "id=".toList ++ tok.toList ++ resto ∧
        pyContains ("id=".toList) antes = false ∧
        pyContains ("id=".toList) tok.toList = false ∧
        (resto = [] ∨ ("id=".toList).isPrefixOf resto = true)) ∧
    (∀ s : String, pyContains ("id=".toList) s.toList = false →
      pyContains ("/d/".toList) s.toList = true →
      ∃ (tok : String) (antes resto : List Char),
        extraer_id_drive (.pyString s) = some tok ∧
        s.toList = antes ++ "/d/".toList ++ tok.toList ++ resto ∧
        pyContains ("/d/".toList) antes = false ∧
        ('/' ∉ tok.toList) ∧
        (resto = [] ∨ ∃ r', resto = '/' :: r')) ∧
    (extraer_id_drive (.pyString "x?id=ABC123") = some "ABC123" ∧
     extraer_id_drive (.pyString "x?foo=1&id=ABC123") = some "ABC123" ∧
     extraer_id_drive (.pyString "https://drive.example.com/file/d/1a2b3c/view")
       = some "1a2b3c" ∧
     extraer_id_drive (.pyString "") = none ∧
     extraer_id_drive .pyNone = none ∧
     extraer_id_drive .pyNan = none ∧
     extraer_id_drive (.pyInt 7) = none ∧
     extraer_id_drive (.pyString "https://example.com/plain") = none) := by
  have hsep1 : ("id=".toList : List Char) ≠ [] := by decide
  have hsep2 : ("/d/".toList : List Char) ≠ [] := by decide
  refine ⟨?_, ?_, by decide⟩
  · intro s hc
    obtain ⟨a, b, hab⟩ := (pyContains_iff _ _).mp hc
    have hws : (s.toList.all Char.isWhitespace) = false := by
      cases hall : s.toList.all Char.isWhitespace
      · rfl
      · exfalso
        have hi : 'i' ∈ s.toList := by
          rw [hab]
          refine List.mem_append.mpr (Or.inl (List.mem_append.mpr (Or.inr ?_)))
          decide
        exact absurd (List.all_eq_true.mp hall 'i' hi) (by decide)
    obtain ⟨p₀, p₁, ps, hsplit⟩ := pySplit_two_pieces ("id=".toList) s.toList hsep1 hc
    refine ⟨String.mk p₁, p₀, colaJoin ("id=".toList) ps, ?_, ?_, ?_, ?_, ?_⟩
    · unfold extraer_id_drive
      dsimp only
      rw [if_neg (by rw [hws]; exact Bool.false_ne_true), if_pos hc, hsplit]
      rfl
    · have hjoin := pyJoin_pySplit ("id=".toList) s.toList hsep1
      rw [hsplit, pyJoin_cons_cons, pyJoin_cons] at hjoin
      rw [← hjoin]
      show _ = p₀ ++ "id=".toList ++ p₁ ++ colaJoin ("id=".toList) ps
      simp [List.append_assoc]
    · exact pySplit_pieces_not_contain ("id=".toList) s.toList hsep1 p₀
        (by rw [hsplit]; exact List.mem_cons_self _ _)
    · exact pySplit_pieces_not_contain ("id=".toList) s.toList hsep1 p₁
        (by rw [hsplit]; exact List.mem_cons_of_mem _ (List.mem_cons_self _ _))
    · exact colaJoin_nil_or_sep _ _
  · intro s hid hd
    obtain ⟨a, b, hab⟩ := (pyContains_iff _ _).mp hd
    have hws : (s.toList.all Char.isWhitespace) = false := by
      cases hall : s.toList.all Char.isWhitespace
      · rfl
      · exfalso
        have hi : 'd' ∈ s.toList := by
          rw [hab]
          refine List.mem_append.mpr (Or.inl (List.mem_append.mpr (Or.inr ?_)))
          decide
        exact absurd (List.all_eq_true.mp hall 'd' hi) (by decide)
    obtain ⟨p₀, p₁, ps, hsplit⟩ := pySplit_two_pieces ("/d/".toList) s.toList hsep2 hd
    obtain ⟨q₀, qs, hq⟩ := List.exists_cons_of_ne_nil (pySplit_ne_nil ("/".toList) p₁)
    refine ⟨String.mk q₀, p₀,
      colaJoin ("/".toList) qs ++ colaJoin ("/d/".toList) ps, ?_, ?_, ?_, ?_, ?_⟩
    · unfold extraer_id_drive
      dsimp only
      rw [if_neg (by rw [hws]; exact Bool.false_ne_true),
        if_neg (by rw [hid]; exact Bool.false_ne_true), if_pos hd, hsplit]
      show some (String.mk ((pySplit ("/".toList) p₁).getD 0 [])) = _
      rw [hq]
      rfl
    · have hjoin := pyJoin_pySplit ("/d/".toList) s.toList hsep2
      rw [hsplit, pyJoin_cons_cons, pyJoin_cons] at hjoin
      have hjoin2 := pyJoin_pySplit ("/".toList) p₁ (by decide)
      rw [hq, pyJoin_cons] at hjoin2
      rw [← hjoin, ← hjoin2]
      show _ = p₀ ++ "/d/".toList ++ q₀ ++
        (colaJoin ("/".toList) qs ++ colaJoin ("/d/".toList) ps)
      simp [List.append_assoc]
    · exact pySplit_pieces_not_contain ("/d/".toList) s.toList hsep2 p₀
        (by rw [hsplit]; exact List.mem_cons_self _ _)
    · intro hmem
      have hq0 : pyContains ("/".toList) q₀ = false :=
        pySplit_pieces_not_contain ("/".toList) p₁ (by decide) q₀
          (by rw [hq]; exact List.mem_cons_self _ _)
      refine absurd ((pyContains_singleton '/' q₀).mpr hmem) ?_
      show pyContains ("/".toList) q₀ ≠ true
      rw [hq0]
      exact Bool.false_ne_true
    · cases qs with
      | cons q qs' => exact Or.inr ⟨_, rfl⟩
      | nil =>
        cases ps with
        | nil => exact Or.inl rfl
        | cons p ps' => exact Or.inr ⟨_, rfl⟩

/-- C3 witness: the amended id= clause applied to a concrete link with two id=
markers. -/
theorem extraer_id_drive_spec_witness :
    ∃ (tok : String) (antes resto : List Char),
      extraer_id_drive (.pyString "x?id=A&id=B") = some tok ∧
      "x?id=A&id=B".toList = antes ++ "id=".toList ++ tok.toList ++ resto ∧
      pyContains ("id=".toList) antes = false ∧
      pyContains ("id=".toList) tok.toList = false ∧
      (resto = [] ∨ ("id=".toList).isPrefixOf resto = true) :=
  extraer_id_drive_spec.1 "x?id=A&id=B" (by decide)

theorem lastDotIdx_eq_none (cs : List Char) (h : '.' ∉ cs) : lastDotIdx cs = none := by
  induction cs with
  | nil => rfl
  | cons c rest ih =>
    have h1 : '.' ∉ rest := fun hm => h (List.mem_cons_of_mem _ hm)
    have h2 : ¬(c = '.') := fun hc => h (hc ▸ List.mem_cons_self _ _)
    simp [lastDotIdx, ih h1, h2]

theorem string_mk_append (a b : String) : String.mk (a.toList ++ b.toList) = a ++ b := by
  cases a
  cases b
  rfl

theorem string_toList_append (a b : String) : (a ++ b).toList = a.toList ++ b.toList :=
  String.data_append a b

/-- C9 counterexample: for the display name "Juan P. Perez" the final path is
not prefix-period-name with ".pdf" appended; with_suffix(".pdf") replaces the
pathlib suffix ". Perez" of the constructed name, truncating the display name. -/
theorem ruta_final_cex :
    descargar_destino_final
        ⟨"salida/OSDE", nombre_archivo_base "enero" (.pyString "Juan P. Perez")⟩
      = ⟨"salida/OSDE", "planilla de asistencia enero Juan P.pdf"⟩ ∧
    nombre_archivo_base "enero" (.pyString "Juan P. Perez") ++ ".pdf"
      = "planilla de asistencia enero Juan P. Perez.pdf" ∧
    ("planilla de asistencia enero Juan P.pdf" : String)
      ≠ "planilla de asistencia enero Juan P. Perez.pdf" := by
  refine ⟨by decide, by decide, by decide⟩

theorem pyStem_eq_self_iff (name : List Char) :
    pyStem name = name ↔ pySuffix name = [] := by
  unfold pyStem pySuffix
  cases h : lastDotIdx name with
  | none => simp
  | some i =>
    dsimp only
    by_cases hc : 0 < i ∧ i + 1 < name.length
    · rw [if_pos hc, if_pos hc]
      constructor
      · intro ht
        exfalso
        have hl := congrArg List.length ht
        rw [List.length_take] at hl
        omega
      · intro hd
        exfalso
        have hl := congrArg List.length hd
        rw [List.length_drop] at hl
        simp at hl
        omega
    · rw [if_neg hc, if_neg hc]
      simp

theorem destino_final_eq_append_iff (carpeta n : String) :
    descargar_destino_final ⟨carpeta, n⟩ = (⟨carpeta, n ++ ".pdf"⟩ : PyPath)
      ↔ pySuffix n.toList = [] := by
  rw [← pyStem_eq_self_iff]
  constructor
  · intro h
    have hn : String.mk (pyWithSuffix n.toList (".pdf".toList)) = n ++ ".pdf" :=
      congrArg PyPath.name h
    have hdata : pyWithSuffix n.toList (".pdf".toList) = n.toList ++ ".pdf".toList := by
      have := congrArg String.toList hn
      rw [string_toList_append] at this
      exact this
    exact List.append_cancel_right hdata
  · intro h
    show (⟨carpeta, String.mk (pyWithSuffix n.toList (".pdf".toList))⟩ : PyPath) = _
    have hn : String.mk (pyWithSuffix n.toList (".pdf".toList)) = n ++ ".pdf" := by
      unfold pyWithSuffix
      rw [h]
      exact string_mk_append _ _
    rw [hn]

/-- C9 (amended): the final destination for a row is the classified folder (one
of the two configured directories) joined with the constructed file name after
with_suffix(".pdf"): its name always ends in ".pdf"; it equals
"<prefix> <period> <name>.pdf" exactly when the constructed file name has no
pathlib suffix (no dot that is neither its first nor its last character) — in
particular whenever the period label and the display name contain no dot; when
the constructed name does have a pathlib suffix, with_suffix replaces that
suffix by ".pdf" instead of appending. -/
theorem ruta_final_spec (osde_path no_osde_path mes : String)
    (categoria nombre : CellValue) :
    (∀ carpeta : String,
      (descargar_destino_final ⟨carpeta, nombre_archivo_base mes nombre⟩).parent
        = carpeta ∧
      (".pdf".toList
        <:+ (descargar_destino_final ⟨carpeta, nombre_archivo_base mes nombre⟩).name.toList) ∧
      (descargar_destino_final ⟨carpeta, nombre_archivo_base mes nombre⟩
          = ⟨carpeta, nombre_archivo_base mes nombre ++ ".pdf"⟩
        ↔ pySuffix (nombre_archivo_base mes nombre).toList = []) ∧
      ('.' ∉ mes.toList → '.' ∉ (pyStr nombre).toList →
        descargar_destino_final ⟨carpeta, nombre_archivo_base mes nombre⟩
          = ⟨carpeta, nombre_archivo_base mes nombre ++ ".pdf"⟩)) ∧
    (seleccionar_carpeta_destino categoria osde_path no_osde_path = osde_path ∨
     seleccionar_carpeta_destino categoria osde_path no_osde_path = no_osde_path) := by
  constructor
  · intro carpeta
    refine ⟨rfl, ?_, destino_final_eq_append_iff carpeta (nombre_archivo_base mes nombre),
      ?_⟩
    · show (".pdf".toList : List Char)
        <:+ pyWithSuffix (nombre_archivo_base mes nombre).toList (".pdf".toList)
      unfold pyWithSuffix
      exact List.suffix_append _ _
    · intro h1 h2
      have hnd : '.' ∉ (nombre_archivo_base mes nombre).toList := by
        unfold nombre_archivo_base
        rw [string_toList_append, string_toList_append, string_toList_append]
        intro hm
        rcases List.mem_append.mp hm with hm1 | hm1
        · rcases List.mem_append.mp hm1 with hm2 | hm2
          · rcases List.mem_append.mp hm2 with hm3 | hm3
            · exact absurd hm3 (by decide)
            · exact h1 hm3
          · exact absurd hm2 (by decide)
        · exact h2 hm1
      have hld : lastDotIdx (nombre_archivo_base mes nombre).toList = none :=
        lastDotIdx_eq_none _ hnd
      have hname : String.mk
          (pyWithSuffix (nombre_archivo_base mes nombre).toList (".pdf".toList))
          = nombre_archivo_base mes nombre ++ ".pdf" := by
        unfold pyWithSuffix pyStem
        rw [hld]
        exact string_mk_append _ _
      show (⟨carpeta, String.mk
          (pyWithSuffix (nombre_archivo_base mes nombre).toList (".pdf".toList))⟩ : PyPath)
        = ⟨carpeta, nombre_archivo_base mes nombre ++ ".pdf"⟩
      rw [hname]
  · cases hb : es_osde categoria <;> simp [seleccionar_carpeta_destino, hb]

/-- C9 witness: for a dot-free period and name the final path is exactly
prefix-period-name with ".pdf" appended, inside the classified folder. -/
theorem ruta_final_spec_witness :
    descargar_destino_final
        ⟨"salida/OSDE", nombre_archivo_base "enero" (.pyString "Ana Diaz")⟩
      = ⟨"salida/OSDE", nombre_archivo_base "enero" (.pyString "Ana Diaz") ++ ".pdf"⟩ :=
  ((ruta_final_spec "salida/OSDE" "salida/NO es osde" "enero"
      (.pyString "OSDE") (.pyString "Ana Diaz")).1 "salida/OSDE").2.2.2
    (by decide) (by decide)

theorem procesar_fila_spec (dl : String → PyPath → Except String String) (mes : String)
    (osde_path no_osde_path : String) (total i : Nat) (row : InputRow) :
    (procesar_fila dl mes osde_path no_osde_path total i row).1.current = i + 1 ∧
    (procesar_fila dl mes osde_path no_osde_path total i row).1.total = total ∧
    (procesar_fila dl mes osde_path no_osde_path total i row).1.nombre = row.nombre ∧
    ((procesar_fila dl mes osde_path no_osde_path total i row).1.status
      = if (procesar_fila dl mes osde_path no_osde_path total i row).2
        then "success" else "error") ∧
    ((procesar_fila dl mes osde_path no_osde_path total i row).2 = false →
      (procesar_fila dl mes osde_path no_osde_path total i row).1.errorMsg ≠ none) := by
  unfold procesar_fila
  cases hx : extraer_id_drive row.link with
  | none => simp
  | some fid =>
    dsimp only
    by_cases he : fid = ""
    · rw [if_pos he]
      simp
    · rw [if_neg he]
      cases hd : dl fid ⟨seleccionar_carpeta_destino row.categoria osde_path no_osde_path,
          nombre_archivo_base mes row.nombre⟩ with
      | ok p => simp
      | error e => simp

theorem procesar_filas_spec (dl : String → PyPath → Except String String) (mes : String)
    (osde_path no_osde_path : String) (total : Nat) :
    ∀ (filas : List InputRow) (i : Nat),
      (procesar_filas dl mes osde_path no_osde_path total i filas).1 +
        (procesar_filas dl mes osde_path no_osde_path total i filas).2.1
        = filas.length ∧
      (procesar_filas dl mes osde_path no_osde_path total i filas).2.2.length
        = filas.length ∧
      (∀ j fila, filas[j]? = some fila →
        (procesar_filas dl mes osde_path no_osde_path total i filas).2.2[j]?
          = some (procesar_fila dl mes osde_path no_osde_path total (i + j) fila).1) := by
  intro filas
  induction filas with
  | nil =>
    intro i
    refine ⟨rfl, rfl, ?_⟩
    intro j fila h
    simp at h
  | cons row rest ih =>
    intro i
    obtain ⟨ih1, ih2, ih3⟩ := ih (i + 1)
    refine ⟨?_, ?_, ?_⟩
    · show (if (procesar_fila dl mes osde_path no_osde_path total i row).2
          then (procesar_filas dl mes osde_path no_osde_path total (i + 1) rest).1 + 1
          else (procesar_filas dl mes osde_path no_osde_path total (i + 1) rest).1) +
        (if (procesar_fila dl mes osde_path no_osde_path total i row).2
          then (procesar_filas dl mes osde_path no_osde_path total (i + 1) rest).2.1
          else (procesar_filas dl mes osde_path no_osde_path total (i + 1) rest).2.1 + 1)
        = (row :: rest).length
      cases (procesar_fila dl mes osde_path no_osde_path total i row).2 <;> simp <;>
        omega
    · show ((procesar_fila dl mes osde_path no_osde_path total i row).1 ::
          (procesar_filas dl mes osde_path no_osde_path total (i + 1) rest).2.2).length
        = (row :: rest).length
      simp [ih2]
    · intro j fila hj
      cases j with
      | zero =>
        simp only [List.getElem?_cons_zero, Option.some.injEq] at hj
        subst hj
        show ((procesar_fila dl mes osde_path no_osde_path total i row).1 ::
            (procesar_filas dl mes osde_path no_osde_path total (i + 1) rest).2.2)[0]?
          = some (procesar_fila dl mes osde_path no_osde_path total (i + 0) row).1
        simp
      | succ j' =>
        have hj' : rest[j']? = some fila := by simpa using hj
        show ((procesar_fila dl mes osde_path no_osde_path total i row).1 ::
            (procesar_filas dl mes osde_path no_osde_path total (i + 1) rest).2.2)[j' + 1]?
          = some (procesar_fila dl mes osde_path no_osde_path total (i + (j' + 1)) fila).1
        rw [List.getElem?_cons_succ, ih3 j' fila hj']
        have : i + 1 + j' = i + (j' + 1) := by omega
        rw [this]

theorem preparar_carpetas_ok (config : DownloadConfig) (mkdirOk : String → Bool)
    (h1 : mkdirOk (config.output_dir ++ "/" ++ config.osde_subdir) = true)
    (h2 : mkdirOk (config.output_dir ++ "/" ++ config.non_osde_subdir) = true) :
    preparar_carpetas config mkdirOk
      = .ok (config.output_dir ++ "/" ++ config.osde_subdir,
          config.output_dir ++ "/" ++ config.non_osde_subdir) := by
  unfold preparar_carpetas
  rw [h1, h2]
  rfl

theorem cargar_excel_ok (config : DownloadConfig) (excelExists : Bool)
    (leerExcel : Option ExcelTable) (df : ExcelTable)
    (h3 : excelExists = true)
    (h4 : leerExcel = some df)
    (h5 : ∀ c ∈ [config.nombre_col, config.categoria_col, config.link_col],
        df.columnas.contains c = true) :
    cargar_excel config excelExists leerExcel = .ok df := by
  unfold cargar_excel
  rw [h3, h4]
  dsimp only
  have hf : [config.nombre_col, config.categoria_col, config.link_col].filter
      (fun c => !(df.columnas.contains c)) = [] := by
    rw [List.filter_eq_nil_iff]
    intro c hc
    simpa using h5 c hc
  rw [hf]
  rfl

theorem procesar_setup_ok (config : DownloadConfig) (env : ProcessorEnv) (df : ExcelTable)
    (h1 : env.mkdirOk (config.output_dir ++ "/" ++ config.osde_subdir) = true)
    (h2 : env.mkdirOk (config.output_dir ++ "/" ++ config.non_osde_subdir) = true)
    (h3 : env.excelExists = true)
    (h4 : env.leerExcel = some df)
    (h5 : ∀ c ∈ [config.nombre_col, config.categoria_col, config.link_col],
        df.columnas.contains c = true) :
    procesar config env =
      (.ok ⟨df.filas.length,
          (procesar_filas env.descargar config.mes
            (config.output_dir ++ "/" ++ config.osde_subdir)
            (config.output_dir ++ "/" ++ config.non_osde_subdir)
            df.filas.length 0 df.filas).1,
          (procesar_filas env.descargar config.mes
            (config.output_dir ++ "/" ++ config.osde_subdir)
            (config.output_dir ++ "/" ++ config.non_osde_subdir)
            df.filas.length 0 df.filas).2.1,
          resumen_str
            (procesar_filas env.descargar config.mes
              (config.output_dir ++ "/" ++ config.osde_subdir)
              (config.output_dir ++ "/" ++ config.non_osde_subdir)
              df.filas.length 0 df.filas).1
            (procesar_filas env.descargar config.mes
              (config.output_dir ++ "/" ++ config.osde_subdir)
              (config.output_dir ++ "/" ++ config.non_osde_subdir)
              df.filas.length 0 df.filas).2.1
            df.filas.length⟩,
        (procesar_filas env.descargar config.mes
          (config.output_dir ++ "/" ++ config.osde_subdir)
          (config.output_dir ++ "/" ++ config.non_osde_subdir)
          df.filas.length 0 df.filas).2.2) := by
  unfold procesar
  rw [preparar_carpetas_ok config env.mkdirOk h1 h2]
  dsimp only
  rw [cargar_excel_ok config env.excelExists env.leerExcel df h3 h4 h5]

/-- C1: for every environment and valid table (setup succeeds: folders created,
file exists and parses, all three required columns present), procesar returns a
summary with exitos + fallos = total = number of rows, and the progress trace
has exactly one record per input row, in original order, carrying that row's
name, the running index and a success-or-error status. -/
theorem procesar_invariante_total (config : DownloadConfig) (env : ProcessorEnv)
    (df : ExcelTable)
    (h1 : env.mkdirOk (config.output_dir ++ "/" ++ config.osde_subdir) = true)
    (h2 : env.mkdirOk (config.output_dir ++ "/" ++ config.non_osde_subdir) = true)
    (h3 : env.excelExists = true)
    (h4 : env.leerExcel = some df)
    (h5 : ∀ c ∈ [config.nombre_col, config.categoria_col, config.link_col],
        df.columnas.contains c = true) :
    ∃ (s : RunSummary) (tr : List ProgressCall),
      procesar config env = (.ok s, tr) ∧
      s.total = df.filas.length ∧
      s.exitos + s.fallos = s.total ∧
      tr.length = df.filas.length ∧
      (∀ j fila, df.filas[j]? = some fila →
        ∃ ll, tr[j]? = some ll ∧ ll.current = j + 1 ∧ ll.total = df.filas.length ∧
          ll.nombre = fila.nombre ∧
          (ll.status = "success" ∨ ll.status = "error")) := by
  obtain ⟨hl1, hl2, hl3⟩ := procesar_filas_spec env.descargar config.mes
    (config.output_dir ++ "/" ++ config.osde_subdir)
    (config.output_dir ++ "/" ++ config.non_osde_subdir)
    df.filas.length df.filas 0
  refine ⟨_, _, procesar_setup_ok config env df h1 h2 h3 h4 h5, rfl, hl1, hl2, ?_⟩
  intro j fila hj
  refine ⟨(procesar_fila env.descargar config.mes
      (config.output_dir ++ "/" ++ config.osde_subdir)
      (config.output_dir ++ "/" ++ config.non_osde_subdir)
      df.filas.length (0 + j) fila).1, hl3 j fila hj, ?_, ?_, ?_, ?_⟩
  · obtain ⟨hc, _, _, _, _⟩ := procesar_fila_spec env.descargar config.mes
      (config.output_dir ++ "/" ++ config.osde_subdir)
      (config.output_dir ++ "/" ++ config.non_osde_subdir)
      df.filas.length (0 + j) fila
    rw [hc]
    omega
  · obtain ⟨_, ht, _, _, _⟩ := procesar_fila_spec env.descargar config.mes
      (config.output_dir ++ "/" ++ config.osde_subdir)
      (config.output_dir ++ "/" ++ config.non_osde_subdir)
      df.filas.length (0 + j) fila
    exact ht
  · obtain ⟨_, _, hn, _, _⟩ := procesar_fila_spec env.descargar config.mes
      (config.output_dir ++ "/" ++ config.osde_subdir)
      (config.output_dir ++ "/" ++ config.non_osde_subdir)
      df.filas.length (0 + j) fila
    exact hn
  · obtain ⟨_, _, _, hs, _⟩ := procesar_fila_spec env.descargar config.mes
      (config.output_dir ++ "/" ++ config.osde_subdir)
      (config.output_dir ++ "/" ++ config.non_osde_subdir)
      df.filas.length (0 + j) fila
    cases hp : (procesar_fila env.descargar config.mes
        (config.output_dir ++ "/" ++ config.osde_subdir)
        (config.output_dir ++ "/" ++ config.non_osde_subdir)
        df.filas.length (0 + j) fila).2
    · rw [hp] at hs
      exact Or.inr (by simpa using hs)
    · rw [hp] at hs
      exact Or.inl (by simpa using hs)

/-- Two-row table used to witness the processing invariants on a concrete run:
one resolvable link and one unparsable link. -/
def tabla_testigo : ExcelTable :=
  ⟨["NOMBRE Y APELLIDO", "osde - no osde", "planilla"],
   [⟨.pyString "Ana", .pyString "OSDE", .pyString "x?id=AA"⟩,
    ⟨.pyString "Luis", .pyString "no osde", .pyString "sin enlace"⟩]⟩

/-- Environment used to witness the processing invariants: every mkdir succeeds,
the table reads as `tabla_testigo`, and every download succeeds. -/
def entorno_testigo : ProcessorEnv :=
  ⟨fun _ => true, true, some tabla_testigo,
   fun _ p => .ok (p.parent ++ "/" ++ p.name ++ ".pdf")⟩

/-- C1 witness: the invariants hold on a concrete two-row run. -/
theorem procesar_invariante_total_witness :
    ∃ (s : RunSummary) (tr : List ProgressCall),
      procesar { excel_path := "in.xlsx", output_dir := "salida", mes := "enero" }
          entorno_testigo = (.ok s, tr) ∧
      s.total = tabla_testigo.filas.length ∧
      s.exitos + s.fallos = s.total ∧
      tr.length = tabla_testigo.filas.length ∧
      (∀ j fila, tabla_testigo.filas[j]? = some fila →
        ∃ ll, tr[j]? = some ll ∧ ll.current = j + 1 ∧
          ll.total = tabla_testigo.filas.length ∧
          ll.nombre = fila.nombre ∧
          (ll.status = "success" ∨ ll.status = "error")) :=
  procesar_invariante_total
    { excel_path := "in.xlsx", output_dir := "salida", mes := "enero" }
    entorno_testigo tabla_testigo rfl rfl rfl rfl (by decide)

/-- C2: the row loop never aborts: whenever the run raises (ConfigError) the
progress trace is empty, a directory-creation failure raises before any row
with no callback invocation, under successful setup the run returns a summary
and the trace record of each row is computed from that row alone (so every row
is still processed after any earlier failure), and a row whose link is
unresolvable or whose download raises DownloadError gets status "error" with a
non-empty message. -/
theorem procesar_aislamiento_filas (config : DownloadConfig) (env : ProcessorEnv) :
    (∀ e, (procesar config env).1 = .error e → (procesar config env).2 = []) ∧
    ((env.mkdirOk (config.output_dir ++ "/" ++ config.osde_subdir) = false ∨
      env.mkdirOk (config.output_dir ++ "/" ++ config.non_osde_subdir) = false) →
      ∃ e, procesar config env = (.error e, [])) ∧
    (∀ df : ExcelTable,
      env.mkdirOk (config.output_dir ++ "/" ++ config.osde_subdir) = true →
      env.mkdirOk (config.output_dir ++ "/" ++ config.non_osde_subdir) = true →
      env.excelExists = true → env.leerExcel = some df →
      (∀ c ∈ [config.nombre_col, config.categoria_col, config.link_col],
        df.columnas.contains c = true) →
      ((∃ s, (procesar config env).1 = .ok s) ∧
       (procesar config env).2.length = df.filas.length ∧
       (∀ j fila, df.filas[j]? = some fila →
         (procesar config env).2[j]? = some (procesar_fila env.descargar config.mes
           (config.output_dir ++ "/" ++ config.osde_subdir)
           (config.output_dir ++ "/" ++ config.non_osde_subdir)
           df.filas.length j fila).1))) ∧
    (∀ (dl : String → PyPath → Except String String) (mes o n : String)
       (total i : Nat) (row : InputRow),
      (extraer_id_drive row.link = none ∨ extraer_id_drive row.link = some "" ∨
       (∃ fid e', extraer_id_drive row.link = some fid ∧ fid ≠ "" ∧
         dl fid ⟨seleccionar_carpeta_destino row.categoria o n,
                 nombre_archivo_base mes row.nombre⟩ = .error e')) →
      (procesar_fila dl mes o n total i row).1.status = "error" ∧
      (procesar_fila dl mes o n total i row).1.errorMsg ≠ none) := by
  refine ⟨?_, ?_, ?_, ?_⟩
  · intro e
    unfold procesar
    cases hprep : preparar_carpetas config env.mkdirOk with
    | error e' =>
      intro _
      rfl
    | ok par =>
      obtain ⟨o, n⟩ := par
      dsimp only
      cases hcarga : cargar_excel config env.excelExists env.leerExcel with
      | error e' =>
        intro _
        rfl
      | ok df =>
        dsimp only
        intro h
        simp at h
  · intro hm
    have hex : ∃ e', preparar_carpetas config env.mkdirOk = .error e' := by
      unfold preparar_carpetas
      by_cases hm1 : env.mkdirOk (config.output_dir ++ "/" ++ config.osde_subdir) = false
      · rw [if_pos hm1]
        exact ⟨_, rfl⟩
      · rcases hm with hm | hm
        · exact absurd hm hm1
        · rw [if_neg hm1, if_pos hm]
          exact ⟨_, rfl⟩
    obtain ⟨e', he'⟩ := hex
    unfold procesar
    rw [he']
    exact ⟨e', rfl⟩
  · intro df h1 h2 h3 h4 h5
    obtain ⟨hl1, hl2, hl3⟩ := procesar_filas_spec env.descargar config.mes
      (config.output_dir ++ "/" ++ config.osde_subdir)
      (config.output_dir ++ "/" ++ config.non_osde_subdir)
      df.filas.length df.filas 0
    rw [procesar_setup_ok config env df h1 h2 h3 h4 h5]
    refine ⟨⟨_, rfl⟩, hl2, ?_⟩
    intro j fila hj
    simpa using hl3 j fila hj
  · intro dl mes o n total i row hfail
    unfold procesar_fila
    rcases hfail with hf | hf | ⟨fid, e', hf, hne, hdl⟩
    · rw [hf]
      exact ⟨rfl, by simp⟩
    · rw [hf]
      dsimp only
      rw [if_pos rfl]
      exact ⟨rfl, by simp⟩
    · rw [hf]
      dsimp only
      rw [if_neg hne, hdl]
      exact ⟨rfl, by simp⟩

/-- Environment whose directory creation always fails. -/
def entorno_mkdir_falla : ProcessorEnv :=
  ⟨fun _ => false, true, some tabla_testigo, fun _ _ => .ok ""⟩

/-- C2 witness: with failing directory creation the run raises ConfigError with
an empty progress trace (the callback is never invoked). -/
theorem procesar_aislamiento_filas_witness :
    ∃ e, procesar { excel_path := "in.xlsx", output_dir := "salida", mes := "enero" }
        entorno_mkdir_falla = (.error e, []) :=
  (procesar_aislamiento_filas
      { excel_path := "in.xlsx", output_dir := "salida", mes := "enero" }
      entorno_mkdir_falla).2.1 (Or.inl rfl)
